import Mathlib

/-!
Verification development for a bounded-concurrency video subtitling bot
(single source file `app.py`).  The pure computations (time-code formatting,
segment normalization, batch translation, subtitle serialization) are embedded
directly; the stateful orchestration (`process_video_job`, `handle_video`,
the admission semaphore) is embedded as explicit effect records and a small
transition system parameterized over the outcomes of the external
collaborators (transcription, translation, render, upload).  Python floats
are modelled as exact rationals; Python ints as `Int`/`Nat`.
-/

/-! ### Python arithmetic primitives used by the time-code encoder -/

/-- Python `int(q)` on a float: truncation toward zero. -/
def pyInt (q : ℚ) : ℤ := if q < 0 then ⌈q⌉ else ⌊q⌋

/-- Python float floor-division `a // b` (result is a float with integral value). -/
def pyFloorDiv (a b : ℚ) : ℚ := ((⌊a / b⌋ : ℤ) : ℚ)

/-- Python float modulo `a % b` (sign follows the divisor; here used with positive divisors). -/
def pyMod (a b : ℚ) : ℚ := a - b * ((⌊a / b⌋ : ℤ) : ℚ)

/-- Python `f"{z:02}"` for the integral values fed to it by the encoder:
two-digit zero padding of a small nonnegative value, plain rendering otherwise. -/
def pad02 (z : ℤ) : String := if 0 ≤ z ∧ z < 10 then "0" ++ toString z else toString z

/-- `seconds_to_ass_time` from `app.py`: format a seconds value as `H:MM:SS.cc`
(`cs` is the truncated centisecond part). -/
def seconds_to_ass_time (t : ℚ) : String :=
  let h : ℤ := pyInt (pyFloorDiv t 3600)
  let m : ℤ := pyInt (pyFloorDiv (pyMod t 3600) 60)
  let s : ℤ := pyInt (pyMod t 60)
  let cs : ℤ := pyInt ((t - ((pyInt t : ℤ) : ℚ)) * 100)
  toString h ++ ":" ++ pad02 m ++ ":" ++ pad02 s ++ "." ++ pad02 cs

/-! ### A decoder for `H:MM:SS.cc` strings (test-harness side inverse,
derivable per spec section 4.1; not part of the source) -/

/-- Split a character list at every occurrence of `c` (like Python `str.split`). -/
def splitChar (c : Char) : List Char → List (List Char)
  | [] => [[]]
  | x :: xs =>
    if x = c then [] :: splitChar c xs
    else
      match splitChar c xs with
      | [] => [[x]]
      | g :: gs => (x :: g) :: gs

/-- Numeric value of a decimal digit character. -/
def digitVal (c : Char) : ℕ := c.toNat - 48

/-- Parse a list of decimal digit characters as a natural number. -/
def parseNatL (l : List Char) : ℕ := l.foldl (fun a c => a * 10 + digitVal c) 0

/-- Decode an `H:MM:SS.cc` time-code string back to seconds:
`hours*3600 + minutes*60 + seconds + centiseconds/100`. -/
def ass_time_to_seconds (str : String) : ℚ :=
  match splitChar ':' str.data with
  | [hs, ms, rest] =>
    match splitChar '.' rest with
    | [ss, cc] =>
      (parseNatL hs : ℚ) * 3600 + (parseNatL ms : ℚ) * 60 + (parseNatL ss : ℚ) +
        (parseNatL cc : ℚ) / 100
    | _ => 0
  | _ => 0

/-! ### Segment model -/

/-- Python `str.strip()`: drop leading and trailing whitespace
(structural embedding over the character list). -/
def pyStrip (s : String) : String :=
  ⟨((s.data.dropWhile Char.isWhitespace).reverse.dropWhile Char.isWhitespace).reverse⟩

/-- A raw transcription span as returned by the provider: the `start`, `end`
and `text` dict keys may each be absent (`none`). -/
structure RawSpan where
  start : Option ℚ
  end_ : Option ℚ
  text : Option String
deriving DecidableEq

/-- A retained segment: `{"start": float, "end": float, "text": str}`. -/
structure Segment where
  start : ℚ
  end_ : ℚ
  text : String
deriving DecidableEq

/-- The normalization loop of `process_video_job` (`app.py` lines 189-198):
skip spans missing `start` or `end`, strip the text (missing text defaults to
the empty string), skip empty text, keep everything else unchanged. -/
def normalizeSpans : List RawSpan → List Segment
  | [] => []
  | s :: rest =>
    match s.start, s.end_ with
    | some a, some b =>
      if pyStrip (s.text.getD "") = "" then normalizeSpans rest
      else ⟨a, b, pyStrip (s.text.getD "")⟩ :: normalizeSpans rest
    | _, _ => normalizeSpans rest

/-- `max(s["end"] for s in simple_segments)`: maximum `end` of a nonempty
segment list (`0` supplied for the empty list, which the caller excludes). -/
def maxEnd : List Segment → ℚ
  | [] => 0
  | [s] => s.end_
  | s :: rest => max s.end_ (maxEnd rest)

/-! ### Batch translator -/

/-- The sentinel delimiter of `batch_translate_texts`. -/
def splitDelimiter : String := "\n<<<SPLIT>>> \n"

/-- `batch_translate_texts` from `app.py`, parameterized over the external
provider `tr` (`translator.translate`): join with the sentinel delimiter,
translate once, split on the delimiter and trim; if the part count mismatches
the input count, fall back to one provider call per text. -/
def batch_translate_texts (tr : String → String) (texts : List String) : List String :=
  if texts.isEmpty then []
  else
    let big := String.intercalate splitDelimiter texts
    let parts := ((tr big).splitOn splitDelimiter).map pyStrip
    if parts.length ≠ texts.length then texts.map tr else parts

/-- Number of provider calls made by `batch_translate_texts` on the same input:
one batch call, plus one per text on the fallback path. -/
def batch_translate_calls (tr : String → String) (texts : List String) : ℕ :=
  if texts.isEmpty then 0
  else
    let big := String.intercalate splitDelimiter texts
    let parts := ((tr big).splitOn splitDelimiter).map pyStrip
    if parts.length ≠ texts.length then 1 + texts.length else 1

/-! ### Subtitle-track serializer -/

/-- `shape_for_ass` from `app.py`, parameterized over the external
reshaping oracle (`arabic_reshaper.reshape` composed with `bidi.get_display`);
`none` models the exception path, whose fallback returns the original text. -/
def shape_for_ass (reshape : String → Option String) (text : String) : String :=
  match reshape text with
  | some r => r
  | none => text

/-- The ASS newline escape applied by `make_ass_file`:
`text.replace("\n", "\\N")` (the needle is the single newline character). -/
def escapeAssNewlines (t : String) : String :=
  ⟨t.data.foldr (fun c acc => if c = '\n' then '\\' :: 'N' :: acc else c :: acc) []⟩

/-- One `Dialogue:` event line of `make_ass_file` (`app.py` lines 104-112). -/
def dialogue_line (reshape : String → Option String) (seg : Segment) : String :=
  "Dialogue: 0," ++ seconds_to_ass_time seg.start ++ "," ++ seconds_to_ass_time seg.end_ ++
    ",Default,,0,0,0,," ++ shape_for_ass reshape (escapeAssNewlines seg.text) ++ "\n"

/-- The fixed header block of `make_ass_file`. -/
def ass_header (font_name : String) : String :=
  "[Script Info]\n" ++
  "ScriptType: v4.00+\n" ++
  "PlayResX: 1280\n" ++
  "PlayResY: 720\n" ++
  "WrapStyle: 0\n" ++
  "ScaledBorderAndShadow: yes\n\n" ++
  "[V4+ Styles]\n" ++
  "Format: Name, Fontname, Fontsize, PrimaryColour, SecondaryColour, OutlineColour, BackColour, " ++
  "Bold, Italic, Underline, StrikeOut, ScaleX, ScaleY, Spacing, Angle, BorderStyle, Outline, Shadow, " ++
  "Alignment, MarginL, MarginR, MarginV, Encoding\n" ++
  "Style: Default," ++ font_name ++ ",36,&H00FFFFFF,&H000000FF,&H00000000,&H64000000," ++
  "0,0,0,0,100,100,0,0,1,2,0,2,10,10,40,1\n\n" ++
  "[Events]\n" ++
  "Format: Layer, Start, End, Style, Name, MarginL, MarginR, MarginV, Effect, Text\n"

/-- Content of the document written by `make_ass_file` (the temporary file's
path is external nondeterminism; the content is header plus one event line per
segment).  The `fonts_dir` parameter is accepted, as in the source signature. -/
def make_ass_content (reshape : String → Option String) (segments : List Segment)
    (fonts_dir : Option String) (font_name : String) : String :=
  ass_header font_name ++ String.join (segments.map (dialogue_line reshape))

/-- The `-vf` filter string built by `burn_ass_with_ffmpeg` (`app.py` lines 126-130). -/
def burn_filter_str (ass_path : String) (fonts_dir : Option String) : String :=
  match fonts_dir with
  | none => "ass='" ++ ass_path ++ "'"
  | some d => "ass='" ++ ass_path ++ "':fontsdir='" ++ d ++ "'"

/-! ### Translation write-back -/

/-- The write-back loop `for i, seg in enumerate(simple_segments): seg["text"] =
translated[i]` (`app.py` lines 214-215): `none` models the `IndexError` raised
when `translated` is shorter than the segment list. -/
def attachTranslations (segs : List Segment) (translated : List String) :
    Option (List Segment) :=
  if segs.length ≤ translated.length then
    some (List.zipWith (fun seg t => { seg with text := t }) segs translated)
  else none

/-! ### Job orchestrator (`process_video_job`) as an effect function

External collaborator outcomes are supplied in a `JobEnv`; the function
records the user-visible notices, the temporary artifacts created and
removed, the number of semaphore releases, the number of translation-provider
calls, and whether the render/delivery steps completed.  Message sends to the
chat are modelled as non-failing (a send failure would merely merge into the
generic exception path that is already covered by the stage-failure flags). -/

/-- The temporary artifacts of one job. -/
inductive Artifact
  | input
  | ass
  | output
deriving DecidableEq

/-- The distinct user-visible notices sent by the bot. -/
inductive Notice
  | busy
  | downloading
  | transcribing
  | noSpeech
  | tooLong
  | translating
  | makingAss
  | burning
  | uploading
  | jobError
  | handlerError
deriving DecidableEq

/-- Outcomes of the external collaborators for one job: whether the
transcription call returns (and with which raw spans), whether the
translation provider is reachable (and how it translates), and whether the
ffmpeg render and the final upload succeed. -/
structure JobEnv where
  transcribeOk : Bool
  spans : List RawSpan
  translateOk : Bool
  tr : String → String
  renderOk : Bool
  uploadOk : Bool

/-- Observable effects of one `process_video_job` run. -/
structure JobEffects where
  notices : List Notice
  created : List Artifact
  removed : List Artifact
  releases : ℕ
  translatorCalls : ℕ
  rendered : Bool
  delivered : Bool
deriving DecidableEq

/-- `process_video_job` from `app.py` (lines 166-251): the input artifact is
written, then transcribe → normalize → empty-check → duration gate →
batch-translate → write-back → serialize (`ass` artifact) → render (`output`
artifact) → deliver → remove the three artifacts.  Every exception lands in
the `except` block (error notice, no artifact removal) and the `finally`
block releases the admission semaphore exactly once on every path. -/
def process_video_job (maxSeconds : ℕ) (env : JobEnv) : JobEffects :=
  if ¬env.transcribeOk then
    { notices := [.transcribing, .jobError], created := [.input], removed := [],
      releases := 1, translatorCalls := 0, rendered := false, delivered := false }
  else
    let simple := normalizeSpans env.spans
    let texts := simple.map Segment.text
    if simple.isEmpty then
      { notices := [.transcribing, .noSpeech], created := [.input], removed := [],
        releases := 1, translatorCalls := 0, rendered := false, delivered := false }
    else if maxEnd simple > (maxSeconds : ℚ) then
      { notices := [.transcribing, .tooLong], created := [.input], removed := [],
        releases := 1, translatorCalls := 0, rendered := false, delivered := false }
    else if ¬env.translateOk then
      { notices := [.transcribing, .translating, .jobError], created := [.input], removed := [],
        releases := 1, translatorCalls := 1, rendered := false, delivered := false }
    else
      let translated := batch_translate_texts env.tr texts
      let calls := batch_translate_calls env.tr texts
      match attachTranslations simple translated with
      | none =>
        { notices := [.transcribing, .translating, .jobError], created := [.input], removed := [],
          releases := 1, translatorCalls := calls, rendered := false, delivered := false }
      | some _ =>
        if ¬env.renderOk then
          { notices := [.transcribing, .translating, .makingAss, .burning, .jobError],
            created := [.input, .ass, .output], removed := [],
            releases := 1, translatorCalls := calls, rendered := false, delivered := false }
        else if ¬env.uploadOk then
          { notices := [.transcribing, .translating, .makingAss, .burning, .uploading, .jobError],
            created := [.input, .ass, .output], removed := [],
            releases := 1, translatorCalls := calls, rendered := true, delivered := false }
        else
          { notices := [.transcribing, .translating, .makingAss, .burning, .uploading],
            created := [.input, .ass, .output], removed := [.input, .ass, .output],
            releases := 1, translatorCalls := calls, rendered := true, delivered := true }

/-! ### Inbound handler (`handle_video`) and the admission semaphore -/

/-- Observable effects of one `handle_video` invocation.  `job` is the effect
record of the submitted `process_video_job`, when one was submitted. -/
structure HandlerEffects where
  notices : List Notice
  acquired : Bool
  submitted : Bool
  job : Option JobEffects

/-- `handle_video` from `app.py` (lines 261-280), given the number of free
semaphore permits `avail`: a non-blocking acquire that fails sends the busy
notice and returns; otherwise the handler sends the downloading notice and
fetches the file — if the fetch raises, the `except` block sends an error
notice (and releases nothing); otherwise the job is submitted. -/
def handle_video (maxSeconds : ℕ) (avail : ℕ) (downloadOk : Bool) (env : JobEnv) :
    HandlerEffects :=
  if avail = 0 then
    { notices := [.busy], acquired := false, submitted := false, job := none }
  else if downloadOk then
    { notices := [.downloading], acquired := true, submitted := true,
      job := some (process_video_job maxSeconds env) }
  else
    { notices := [.downloading, .handlerError], acquired := true, submitted := false,
      job := none }

/-- Total semaphore releases caused by one `handle_video` invocation (the
handler itself never releases; only a submitted job's `finally` block does). -/
def totalReleases (h : HandlerEffects) : ℕ :=
  match h.job with
  | some e => e.releases
  | none => 0

/-- Admission-system state: free permits, jobs currently running (slot held,
will release on completion), and slots leaked by a failed download between
acquire and submit (held forever). -/
structure SysState where
  avail : ℕ
  running : ℕ
  leaked : ℕ
deriving DecidableEq

/-- Admission-relevant events: a video message arrives (with the download
succeeding or not), or a running job reaches its `finally` release. -/
inductive Ev
  | arrive (downloadOk : Bool)
  | finish
deriving DecidableEq

/-- One step of the admission system, following `handle_video` and the
`finally` block of `process_video_job`. -/
def sysStep (s : SysState) : Ev → SysState
  | .arrive dOk =>
    if s.avail = 0 then s
    else if dOk then { avail := s.avail - 1, running := s.running + 1, leaked := s.leaked }
    else { avail := s.avail - 1, running := s.running, leaked := s.leaked + 1 }
  | .finish =>
    if s.running = 0 then s
    else { avail := s.avail + 1, running := s.running - 1, leaked := s.leaked }

/-- Run the admission system over a list of events from an initial state. -/
def sysRun (init : SysState) (evs : List Ev) : SysState := evs.foldl sysStep init

/-! ### Concrete environments used in closed theorems -/

/-- A job environment whose transcription yields one 310-second span
(the spec's duration-gate scenario); all collaborators succeed. -/
def envLong : JobEnv :=
  { transcribeOk := true, spans := [⟨some 0, some 310, some "a"⟩],
    translateOk := true, tr := id, renderOk := true, uploadOk := true }

/-- A job environment for a fully successful short job. -/
def envShort : JobEnv :=
  { transcribeOk := true, spans := [⟨some 0, some 2, some "a"⟩],
    translateOk := true, tr := id, renderOk := true, uploadOk := true }

/-! ### Helper lemmas about the pipeline model -/

/-- The `finally` block of `process_video_job` releases the admission
semaphore exactly once on every path of the job body. -/
theorem process_video_job_releases (maxSeconds : ℕ) (env : JobEnv) :
    (process_video_job maxSeconds env).releases = 1 := by
  simp only [process_video_job]
  split_ifs <;> first | rfl | (split <;> rfl)

/-- Artifact removal in `process_video_job` happens exactly on the fully
successful (delivered) path, and there it removes all three artifacts. -/
theorem process_video_job_removed (maxSeconds : ℕ) (env : JobEnv) :
    ((process_video_job maxSeconds env).delivered = true →
      (process_video_job maxSeconds env).removed = [.input, .ass, .output] ∧
      (process_video_job maxSeconds env).removed = (process_video_job maxSeconds env).created) ∧
    ((process_video_job maxSeconds env).delivered = false →
      (process_video_job maxSeconds env).removed = []) := by
  simp only [process_video_job]
  split_ifs <;> first | simp | (split <;> simp)

/-- The slot-accounting sum is preserved by every admission-system step. -/
theorem sysStep_sum (s : SysState) (e : Ev) :
    (sysStep s e).avail + (sysStep s e).running + (sysStep s e).leaked =
      s.avail + s.running + s.leaked := by
  cases e <;> simp only [sysStep] <;> split_ifs <;> simp <;> omega

/-- The slot-accounting sum is preserved by every admission-system run. -/
theorem sysRun_sum (evs : List Ev) (s : SysState) :
    (sysRun s evs).avail + (sysRun s evs).running + (sysRun s evs).leaked =
      s.avail + s.running + s.leaked := by
  induction evs generalizing s with
  | nil => rfl
  | cons e rest ih =>
    have h1 := sysStep_sum s e
    have h2 := ih (sysStep s e)
    simp only [sysRun, List.foldl_cons] at *
    omega

/-! ### Claim theorems -/

/-- C1: the code leaks the admission slot when the media fetch fails between
acquire and submit.  At the concrete input (one free permit, download raises,
e.g. `requests.get` fails): the handler acquires the slot, submits no job, and
zero releases occur anywhere — while `process_video_job` itself (the only
place a release happens) always releases exactly once when it does run.  This
contradicts the claimed "exactly one release() per successful acquire". -/
theorem handle_video_download_failure_leaks_slot :
    (handle_video 300 1 false envShort).acquired = true ∧
    (handle_video 300 1 false envShort).submitted = false ∧
    totalReleases (handle_video 300 1 false envShort) = 0 ∧
    (∀ (maxSeconds : ℕ) (env : JobEnv), (process_video_job maxSeconds env).releases = 1) :=
  ⟨rfl, rfl, rfl, process_video_job_releases⟩

/-- C2 counterexample: on the duration-bound abort path the job created the
input artifact but the cleanup loop does not run — nothing is removed
(the `return` bypasses the removal loop, which sits at the end of the `try`
block; only the semaphore release in `finally` happens). -/
theorem cleanup_skipped_on_abort_cex :
    (process_video_job 300 envLong).notices = [.transcribing, .tooLong] ∧
    (process_video_job 300 envLong).created = [.input] ∧
    (process_video_job 300 envLong).removed = [] ∧
    (process_video_job 300 envLong).releases = 1 := by
  refine ⟨?_, ?_, ?_, ?_⟩ <;> decide

/-- C2 amended: the cleanup loop removes the three temporary artifacts only on
the fully successful (delivered) path; on every abort or failure path no
artifact is removed; the admission-slot release in `finally` still runs
exactly once on every terminal path of `process_video_job`. -/
theorem cleanup_only_on_success (maxSeconds : ℕ) (env : JobEnv) :
    (process_video_job maxSeconds env).releases = 1 ∧
    ((process_video_job maxSeconds env).delivered = true →
      (process_video_job maxSeconds env).removed = [.input, .ass, .output] ∧
      (process_video_job maxSeconds env).removed = (process_video_job maxSeconds env).created) ∧
    ((process_video_job maxSeconds env).delivered = false →
      (process_video_job maxSeconds env).removed = []) :=
  ⟨process_video_job_releases maxSeconds env,
   (process_video_job_removed maxSeconds env).1,
   (process_video_job_removed maxSeconds env).2⟩

/-- Witness for the C2 amended theorem at a concrete abort input. -/
theorem cleanup_only_on_success_witness :
    (process_video_job 300 envLong).delivered = false ∧
    (process_video_job 300 envLong).removed = [] :=
  ⟨by decide, (cleanup_only_on_success 300 envLong).2.2 (by decide)⟩

/-- C3: in every reachable admission-system state the held slots
(running jobs plus leaked permits) never exceed the configured capacity `W`;
an admission attempt with zero free permits is an immediate denial with the
distinct busy notice and no submitted job; with a free permit the acquire
succeeds; and after a running job's release a subsequent attempt succeeds. -/
theorem admission_bounded_and_nonblocking (W maxSeconds : ℕ) (env : JobEnv)
    (dOk : Bool) (evs : List Ev) :
    (sysRun ⟨W, 0, 0⟩ evs).avail + (sysRun ⟨W, 0, 0⟩ evs).running +
        (sysRun ⟨W, 0, 0⟩ evs).leaked = W ∧
    (sysRun ⟨W, 0, 0⟩ evs).running + (sysRun ⟨W, 0, 0⟩ evs).leaked ≤ W ∧
    handle_video maxSeconds 0 dOk env =
      { notices := [.busy], acquired := false, submitted := false, job := none } ∧
    (∀ a : ℕ, 0 < a → (handle_video maxSeconds a dOk env).acquired = true) ∧
    (0 < (sysRun ⟨W, 0, 0⟩ evs).running →
      0 < (sysStep (sysRun ⟨W, 0, 0⟩ evs) .finish).avail ∧
      (handle_video maxSeconds (sysStep (sysRun ⟨W, 0, 0⟩ evs) .finish).avail dOk
          env).acquired = true) := by
  have hsum := sysRun_sum evs ⟨W, 0, 0⟩
  simp only [] at hsum
  have hacq : ∀ a : ℕ, 0 < a → (handle_video maxSeconds a dOk env).acquired = true := by
    intro a ha
    unfold handle_video
    rw [if_neg (by omega)]
    split <;> rfl
  refine ⟨by omega, by omega, by simp [handle_video], hacq, ?_⟩
  intro hrun
  have hfin : 0 < (sysStep (sysRun ⟨W, 0, 0⟩ evs) .finish).avail := by
    unfold sysStep
    rw [if_neg (by omega)]
    simp
  exact ⟨hfin, hacq _ hfin⟩

/-- Witness for C3 at capacity 1: after one accepted arrival the slot is held;
the finish event frees it and the next acquire succeeds. -/
theorem admission_bounded_and_nonblocking_witness :
    0 < (sysRun ⟨1, 0, 0⟩ [Ev.arrive true]).running ∧
    (handle_video 300 (sysStep (sysRun ⟨1, 0, 0⟩ [Ev.arrive true]) .finish).avail true
        envShort).acquired = true :=
  ⟨by decide,
   ((admission_bounded_and_nonblocking 1 300 envShort true [Ev.arrive true]).2.2.2.2
      (by decide)).2⟩

/-- C5: whenever the retained segments' maximum end exceeds the configured
bound, the job terminates with exactly the "too long" notice, zero translation
provider calls, no render, no delivery, and nothing removed — the whole job is
abandoned before the translation stage. -/
theorem duration_gate_rejects_before_translation (maxSeconds : ℕ) (env : JobEnv)
    (htr : env.transcribeOk = true)
    (hne : normalizeSpans env.spans ≠ [])
    (hlong : maxEnd (normalizeSpans env.spans) > (maxSeconds : ℚ)) :
    process_video_job maxSeconds env =
      { notices := [.transcribing, .tooLong], created := [.input], removed := [],
        releases := 1, translatorCalls := 0, rendered := false, delivered := false } := by
  simp only [process_video_job, htr]
  have hE : (normalizeSpans env.spans).isEmpty = false := by simp [hne]
  rw [hE]
  simp only [Bool.false_eq_true, if_false]
  rw [if_pos hlong]
  simp

/-- Witness for C5 at the spec's scenario: max end 310, bound 300. -/
theorem duration_gate_rejects_before_translation_witness :
    envLong.transcribeOk = true ∧
    normalizeSpans envLong.spans ≠ [] ∧
    maxEnd (normalizeSpans envLong.spans) > ((300 : ℕ) : ℚ) ∧
    process_video_job 300 envLong =
      { notices := [.transcribing, .tooLong], created := [.input], removed := [],
        releases := 1, translatorCalls := 0, rendered := false, delivered := false } :=
  ⟨rfl, by decide, by decide,
   duration_gate_rejects_before_translation 300 envLong rfl (by decide) (by decide)⟩

/-- C10: the `fonts_dir` argument has no effect on the subtitle document
produced by `make_ass_file`; it only selects the `fontsdir` option inside the
ffmpeg filter string built by `burn_ass_with_ffmpeg`. -/
theorem fonts_dir_frame_effect :
    (∀ (reshape : String → Option String) (segs : List Segment)
        (fd : Option String) (fn : String),
      make_ass_content reshape segs fd fn = make_ass_content reshape segs none fn) ∧
    (∀ ap : String, burn_filter_str ap none = "ass='" ++ ap ++ "'") ∧
    (∀ ap d : String,
      burn_filter_str ap (some d) = "ass='" ++ ap ++ "':fontsdir='" ++ d ++ "'") :=
  ⟨fun _ _ _ _ => rfl, fun _ => rfl, fun _ _ => rfl⟩

/-- C4: for every non-empty input list the batch translator returns a list of
the same length; the result is the trimmed delimiter-split of one provider
call on the delimiter-joined blob when the part count matches, and otherwise
the per-text provider calls in input order. -/
theorem batch_translate_length_and_fallback (tr : String → String)
    (texts : List String) (h : texts ≠ []) :
    (batch_translate_texts tr texts).length = texts.length ∧
    ((((tr (String.intercalate splitDelimiter texts)).splitOn splitDelimiter).map
          pyStrip).length = texts.length →
      batch_translate_texts tr texts =
        ((tr (String.intercalate splitDelimiter texts)).splitOn splitDelimiter).map pyStrip) ∧
    ((((tr (String.intercalate splitDelimiter texts)).splitOn splitDelimiter).map
          pyStrip).length ≠ texts.length →
      batch_translate_texts tr texts = texts.map tr) := by
  have hE : texts.isEmpty = false := by simp [h]
  simp only [batch_translate_texts, hE, Bool.false_eq_true, if_false]
  by_cases hp : (((tr (String.intercalate splitDelimiter texts)).splitOn
      splitDelimiter).map pyStrip).length = texts.length
  · rw [if_neg (not_not.mpr hp)]
    exact ⟨hp, fun _ => rfl, fun hc => absurd hp hc⟩
  · rw [if_pos hp]
    exact ⟨by simp, fun hc => absurd hc hp, fun _ => rfl⟩

/-- Witness for C4 on a concrete non-empty input. -/
theorem batch_translate_length_and_fallback_witness :
    (["a", "b"] : List String) ≠ [] ∧
    (batch_translate_texts id ["a", "b"]).length = (["a", "b"] : List String).length :=
  ⟨by decide, (batch_translate_length_and_fallback id ["a", "b"] (by decide)).1⟩

/-- C6: normalization retains exactly the spans with a `start` key, an `end`
key and non-empty stripped text (keeping the stripped text and the unchanged
times), and applies no `end > start` or ordering validation — a span with
`end < start` and one with `end = start` both survive, in input order. -/
theorem normalize_filters_only_missing_and_empty (spans : List RawSpan) :
    normalizeSpans spans = spans.filterMap (fun s =>
      match s.start, s.end_ with
      | some a, some b =>
        if pyStrip (s.text.getD "") = "" then none
        else some ⟨a, b, pyStrip (s.text.getD "")⟩
      | _, _ => none) ∧
    normalizeSpans
        [⟨some 5, some 2, some " b "⟩, ⟨some 9, some 9, some "c"⟩,
         ⟨some 4, some 5, some "  "⟩, ⟨none, some 1, some "d"⟩, ⟨some 1, none, some "e"⟩] =
      [⟨(5 : ℚ), 2, "b"⟩, ⟨9, 9, "c"⟩] := by
  constructor
  · induction spans with
    | nil => rfl
    | cons s rest ih =>
      simp only [normalizeSpans, List.filterMap_cons]
      cases hs : s.start <;> cases he : s.end_ <;> simp only []
      · exact ih
      · exact ih
      · exact ih
      · split
        · simpa using ih
        · simpa using ih
  · decide

/-- C8 counterexample: for the segment text `"abc"` (on the reshaping
fallback path, where the library transform raises and the original text is
used) the serialized event line carries the text payload `"abc"` exactly, and
no character of that payload is a Unicode directional override/embedding
marker — nothing was prepended by the serializer. -/
theorem dialogue_line_no_marker_cex :
    dialogue_line (fun _ => none) ⟨0, 1, "abc"⟩ =
      "Dialogue: 0," ++ seconds_to_ass_time 0 ++ "," ++ seconds_to_ass_time 1 ++
        ",Default,,0,0,0,," ++ "abc" ++ "\n" ∧
    (∀ c ∈ ("abc" : String).data,
      ¬(c.toNat = 0x200E ∨ c.toNat = 0x200F ∨
        (0x202A ≤ c.toNat ∧ c.toNat ≤ 0x202E) ∨
        (0x2066 ≤ c.toNat ∧ c.toNat ≤ 0x2069))) :=
  ⟨rfl, by decide⟩

/-- C8 amended: each serialized event line carries, as its text payload, the
newline-escaped segment text passed through the external bidi-reshaping
transform (left unchanged when the transform raises); the serializer itself
prepends no directional override marker and performs no language detection. -/
theorem dialogue_line_payload_is_reshaped_text (reshape : String → Option String)
    (seg : Segment) :
    dialogue_line reshape seg =
      "Dialogue: 0," ++ seconds_to_ass_time seg.start ++ "," ++
        seconds_to_ass_time seg.end_ ++ ",Default,,0,0,0,," ++
        ((reshape (escapeAssNewlines seg.text)).getD (escapeAssNewlines seg.text)) ++ "\n" := by
  cases hr : reshape (escapeAssNewlines seg.text) <;>
    simp [dialogue_line, shape_for_ass, hr]

/-- Index-wise behaviour of the write-back zip. -/
theorem zipWith_writeback_getElem :
    ∀ (segs : List Segment) (translated : List String) (i : ℕ) (s0 : Segment) (t0 : String),
      segs[i]? = some s0 → translated[i]? = some t0 →
      (List.zipWith (fun seg t => { seg with text := t }) segs translated)[i]? =
        some ⟨s0.start, s0.end_, t0⟩ := by
  intro segs
  induction segs with
  | nil => intro translated i s0 t0 hs; simp at hs
  | cons s ss ih =>
    intro translated i s0 t0 hs ht
    cases translated with
    | nil => simp at ht
    | cons t ts =>
      cases i with
      | zero =>
        simp only [List.getElem?_cons_zero, Option.some.injEq] at hs ht
        subst hs; subst ht
        simp [List.zipWith_cons_cons]
      | succ n =>
        simp only [List.getElem?_cons_succ] at hs ht
        simpa using ih ts n s0 t0 hs ht

/-- C9: when the translated list is exactly as long as the retained segment
list, the write-back loop succeeds (no index error), yields a list of the same
length, and replaces each segment's text with the translation at the same
position while keeping its start and end. -/
theorem writeback_in_bounds_and_positional (segs : List Segment)
    (translated : List String) (h : translated.length = segs.length) :
    ∃ out, attachTranslations segs translated = some out ∧
      out.length = segs.length ∧
      ∀ (i : ℕ) (s0 : Segment) (t0 : String),
        segs[i]? = some s0 → translated[i]? = some t0 →
        out[i]? = some ⟨s0.start, s0.end_, t0⟩ := by
  refine ⟨List.zipWith (fun seg t => { seg with text := t }) segs translated, ?_, ?_, ?_⟩
  · unfold attachTranslations
    rw [if_pos (le_of_eq h.symm)]
  · simp [List.length_zipWith, h]
  · exact fun i s0 t0 hs ht => zipWith_writeback_getElem segs translated i s0 t0 hs ht

/-- Witness for C9 on a concrete one-segment job. -/
theorem writeback_in_bounds_and_positional_witness :
    (["y"] : List String).length = ([⟨0, 1, "x"⟩] : List Segment).length ∧
    ∃ out, attachTranslations [⟨0, 1, "x"⟩] ["y"] = some out ∧
      out[0]? = some ⟨0, 1, "y"⟩ := by
  obtain ⟨out, h1, _, h3⟩ :=
    writeback_in_bounds_and_positional [⟨0, 1, "x"⟩] ["y"] rfl
  exact ⟨rfl, out, h1, h3 0 ⟨0, 1, "x"⟩ "y" rfl rfl⟩

/-! ### C7: time-code round-trip -/


/-- String concatenation acts as list concatenation on the underlying data. -/
theorem strData_append (a b : String) : (a ++ b).data = a.data ++ b.data := rfl

/-- Splitting a list free of the separator yields the single group. -/
theorem splitChar_of_not_mem {c : Char} : ∀ {l : List Char}, c ∉ l → splitChar c l = [l] := by
  intro l
  induction l with
  | nil => intro _; rfl
  | cons x xs ih =>
    intro h
    have hx : ¬x = c := fun hc => h (by simp [hc])
    have hxs : c ∉ xs := fun hc => h (List.mem_cons_of_mem _ hc)
    simp only [splitChar, if_neg hx, ih hxs]

/-- Splitting peels off a separator-free prefix as the first group. -/
theorem splitChar_append {c : Char} : ∀ {a : List Char} (b : List Char), c ∉ a →
    splitChar c (a ++ c :: b) = a :: splitChar c b := by
  intro a
  induction a with
  | nil => intro b _; simp [splitChar]
  | cons x xs ih =>
    intro b h
    have hx : ¬x = c := fun hc => h (by simp [hc])
    have hxs : c ∉ xs := fun hc => h (List.mem_cons_of_mem _ hc)
    have hrec := ih b hxs
    simp only [List.cons_append, splitChar, if_neg hx, List.append_eq, hrec]

/-- Two-digit rendering of a value below 100 parses back to it and contains
no separator character. -/
theorem pad02_digit_facts : ∀ n : ℕ, n < 100 →
    parseNatL (pad02 ((n : ℕ) : ℤ)).data = n ∧
    ':' ∉ (pad02 ((n : ℕ) : ℤ)).data ∧
    '.' ∉ (pad02 ((n : ℕ) : ℤ)).data := by decide

/-- Plain rendering of an hour value below 10 parses back to it and contains
no colon. -/
theorem hour_digit_facts : ∀ n : ℕ, n < 10 →
    parseNatL (toString ((n : ℕ) : ℤ)).data = n ∧
    ':' ∉ (toString ((n : ℕ) : ℤ)).data := by decide

/-- Decoding an encoded quadruple recovers the encoded seconds value. -/
theorem render_parse (hN mN sN csN : ℕ)
    (hh : hN < 10) (hm : mN < 100) (hs : sN < 100) (hc : csN < 100) :
    ass_time_to_seconds
      (toString ((hN : ℕ) : ℤ) ++ ":" ++ pad02 ((mN : ℕ) : ℤ) ++ ":" ++
        pad02 ((sN : ℕ) : ℤ) ++ "." ++ pad02 ((csN : ℕ) : ℤ)) =
      (hN : ℚ) * 3600 + (mN : ℚ) * 60 + (sN : ℚ) + (csN : ℚ) / 100 := by
  obtain ⟨hp, hc1⟩ := hour_digit_facts hN hh
  obtain ⟨mp, mc1, mc2⟩ := pad02_digit_facts mN hm
  obtain ⟨sp, sc1, sc2⟩ := pad02_digit_facts sN hs
  obtain ⟨cp, cc1, cc2⟩ := pad02_digit_facts csN hc
  have hdata :
      (toString ((hN : ℕ) : ℤ) ++ ":" ++ pad02 ((mN : ℕ) : ℤ) ++ ":" ++
        pad02 ((sN : ℕ) : ℤ) ++ "." ++ pad02 ((csN : ℕ) : ℤ)).data =
      (toString ((hN : ℕ) : ℤ)).data ++ ':' ::
        ((pad02 ((mN : ℕ) : ℤ)).data ++ ':' ::
          ((pad02 ((sN : ℕ) : ℤ)).data ++ '.' :: (pad02 ((csN : ℕ) : ℤ)).data)) := by
    simp [strData_append, List.append_assoc]
  have hrest1 : ':' ∉ (pad02 ((sN : ℕ) : ℤ)).data ++ '.' :: (pad02 ((csN : ℕ) : ℤ)).data := by
    intro hmem
    rcases List.mem_append.mp hmem with h1 | h2
    · exact sc1 h1
    · rcases List.mem_cons.mp h2 with h3 | h4
      · exact absurd h3 (by decide)
      · exact cc1 h4
  unfold ass_time_to_seconds
  rw [hdata, splitChar_append _ hc1, splitChar_append _ mc1, splitChar_of_not_mem hrest1]
  simp only []
  rw [splitChar_append _ sc2, splitChar_of_not_mem cc2]
  simp only [hp, mp, sp, cp]

/-- Python int() is the identity on integral values. -/
theorem pyInt_intCast (z : ℤ) : pyInt ((z : ℤ) : ℚ) = z := by
  unfold pyInt
  split
  · exact Int.ceil_intCast z
  · exact Int.floor_intCast z

/-- Python int() truncation coincides with floor on nonnegative values. -/
theorem pyInt_of_nonneg {q : ℚ} (h : 0 ≤ q) : pyInt q = ⌊q⌋ := by
  unfold pyInt
  rw [if_neg (not_lt.mpr h)]

/-- Floor of a division by a positive integer is integer division of the floor. -/
theorem floor_div_int (x : ℚ) (k : ℤ) (hk : 0 < k) : ⌊x / (k : ℚ)⌋ = ⌊x⌋ / k := by
  have hk' : (0 : ℚ) < (k : ℚ) := by exact_mod_cast hk
  have hdm := Int.ediv_add_emod ⌊x⌋ k
  have hr0 : 0 ≤ ⌊x⌋ % k := Int.emod_nonneg _ (by omega)
  have hrk : ⌊x⌋ % k < k := Int.emod_lt_of_pos _ hk
  have hfl : ((⌊x⌋ : ℤ) : ℚ) ≤ x := Int.floor_le x
  have hfu : x < ((⌊x⌋ : ℤ) : ℚ) + 1 := Int.lt_floor_add_one x
  rw [Int.floor_eq_iff]
  constructor
  · rw [le_div_iff hk']
    have h1 : k * (⌊x⌋ / k) ≤ ⌊x⌋ := by linarith
    calc ((⌊x⌋ / k : ℤ) : ℚ) * (k : ℚ) = ((k * (⌊x⌋ / k) : ℤ) : ℚ) := by push_cast; ring
    _ ≤ ((⌊x⌋ : ℤ) : ℚ) := by exact_mod_cast h1
    _ ≤ x := hfl
  · rw [div_lt_iff hk']
    have h2 : ⌊x⌋ + 1 ≤ k * (⌊x⌋ / k) + k := by linarith
    calc x < ((⌊x⌋ : ℤ) : ℚ) + 1 := hfu
    _ = ((⌊x⌋ + 1 : ℤ) : ℚ) := by push_cast; ring
    _ ≤ ((k * (⌊x⌋ / k) + k : ℤ) : ℚ) := by exact_mod_cast h2
    _ = (((⌊x⌋ / k : ℤ) : ℚ) + 1) * (k : ℚ) := by push_cast; ring

/-- The encoder output for `t` in `[0, 36000)` is the rendering of a digit
quadruple in range whose decoded value is within a centisecond below `t`. -/
theorem codec_decomp (t : ℚ) (h0 : 0 ≤ t) (h36 : t < 36000) :
    ∃ hN mN sN csN : ℕ,
      hN < 10 ∧ mN < 60 ∧ sN < 60 ∧ csN < 100 ∧
      seconds_to_ass_time t =
        toString ((hN : ℕ) : ℤ) ++ ":" ++ pad02 ((mN : ℕ) : ℤ) ++ ":" ++
          pad02 ((sN : ℕ) : ℤ) ++ "." ++ pad02 ((csN : ℕ) : ℤ) ∧
      |t - ((hN : ℚ) * 3600 + (mN : ℚ) * 60 + (sN : ℚ) + (csN : ℚ) / 100)| < 1 / 100 := by
  have hn0 : 0 ≤ ⌊t⌋ := Int.floor_nonneg.mpr h0
  have hn36 : ⌊t⌋ < 36000 := Int.floor_lt.mpr (by exact_mod_cast h36)
  have hfl : ((⌊t⌋ : ℤ) : ℚ) ≤ t := Int.floor_le t
  have hfu : t < ((⌊t⌋ : ℤ) : ℚ) + 1 := Int.lt_floor_add_one t
  have hfr : ⌊t - ((⌊t⌋ : ℤ) : ℚ)⌋ = 0 := by
    rw [Int.floor_eq_zero_iff, Set.mem_Ico]
    exact ⟨by linarith, by linarith⟩
  have h1 : ⌊t / (3600 : ℚ)⌋ = ⌊t⌋ / 3600 := by
    rw [← (by norm_num : (((3600 : ℤ) : ℚ)) = (3600 : ℚ)), floor_div_int t 3600 (by norm_num)]
  have h3 : ⌊t / (60 : ℚ)⌋ = ⌊t⌋ / 60 := by
    rw [← (by norm_num : (((60 : ℤ) : ℚ)) = (60 : ℚ)), floor_div_int t 60 (by norm_num)]
  have hh : pyInt (pyFloorDiv t 3600) = ⌊t⌋ / 3600 := by
    unfold pyFloorDiv
    rw [h1, pyInt_intCast]
  have hm3600 : pyMod t 3600 = (t - ((⌊t⌋ : ℤ) : ℚ)) + ((⌊t⌋ % 3600 : ℤ) : ℚ) := by
    unfold pyMod
    rw [h1]
    have hq : ⌊t⌋ % 3600 = ⌊t⌋ - 3600 * (⌊t⌋ / 3600) := by omega
    rw [hq]
    push_cast
    ring
  have h2 : ⌊pyMod t 3600 / (60 : ℚ)⌋ = (⌊t⌋ % 3600) / 60 := by
    rw [← (by norm_num : (((60 : ℤ) : ℚ)) = (60 : ℚ)), floor_div_int _ 60 (by norm_num)]
    congr 1
    rw [hm3600, add_comm, Int.floor_int_add, hfr, add_zero]
  have hm : pyInt (pyFloorDiv (pyMod t 3600) 60) = (⌊t⌋ % 3600) / 60 := by
    unfold pyFloorDiv
    rw [h2, pyInt_intCast]
  have hm60 : pyMod t 60 = (t - ((⌊t⌋ : ℤ) : ℚ)) + ((⌊t⌋ % 60 : ℤ) : ℚ) := by
    unfold pyMod
    rw [h3]
    have hq : ⌊t⌋ % 60 = ⌊t⌋ - 60 * (⌊t⌋ / 60) := by omega
    rw [hq]
    push_cast
    ring
  have hs60 : pyInt (pyMod t 60) = ⌊t⌋ % 60 := by
    have hnn : (0 : ℚ) ≤ pyMod t 60 := by
      rw [hm60]
      have : (0 : ℚ) ≤ ((⌊t⌋ % 60 : ℤ) : ℚ) := by
        exact_mod_cast Int.emod_nonneg ⌊t⌋ (by norm_num : (60 : ℤ) ≠ 0)
      linarith
    rw [pyInt_of_nonneg hnn, hm60, add_comm, Int.floor_int_add, hfr, add_zero]
  have hpt : pyInt t = ⌊t⌋ := pyInt_of_nonneg h0
  have hprod0 : (0 : ℚ) ≤ (t - ((⌊t⌋ : ℤ) : ℚ)) * 100 := by nlinarith
  have hcs : pyInt ((t - ((pyInt t : ℤ) : ℚ)) * 100) = ⌊(t - ((⌊t⌋ : ℤ) : ℚ)) * 100⌋ := by
    rw [hpt, pyInt_of_nonneg hprod0]
  have hc0 : 0 ≤ ⌊(t - ((⌊t⌋ : ℤ) : ℚ)) * 100⌋ := Int.floor_nonneg.mpr hprod0
  have hc100 : ⌊(t - ((⌊t⌋ : ℤ) : ℚ)) * 100⌋ < 100 := by
    apply Int.floor_lt.mpr
    push_cast
    nlinarith
  refine ⟨(⌊t⌋ / 3600).toNat, ((⌊t⌋ % 3600) / 60).toNat, (⌊t⌋ % 60).toNat,
    (⌊(t - ((⌊t⌋ : ℤ) : ℚ)) * 100⌋).toNat, by omega, by omega, by omega, by omega, ?_, ?_⟩
  · have e1 : (((⌊t⌋ / 3600).toNat : ℕ) : ℤ) = ⌊t⌋ / 3600 := Int.toNat_of_nonneg (by omega)
    have e2 : ((((⌊t⌋ % 3600) / 60).toNat : ℕ) : ℤ) = (⌊t⌋ % 3600) / 60 :=
      Int.toNat_of_nonneg (by omega)
    have e3 : (((⌊t⌋ % 60).toNat : ℕ) : ℤ) = ⌊t⌋ % 60 := Int.toNat_of_nonneg (by omega)
    have e4 : (((⌊(t - ((⌊t⌋ : ℤ) : ℚ)) * 100⌋).toNat : ℕ) : ℤ) =
        ⌊(t - ((⌊t⌋ : ℤ) : ℚ)) * 100⌋ := Int.toNat_of_nonneg (by omega)
    rw [e1, e2, e3, e4]
    simp only [seconds_to_ass_time]
    rw [hh, hm, hs60, hcs]
  · have key : ((⌊t⌋ / 3600).toNat : ℤ) * 3600 + (((⌊t⌋ % 3600) / 60).toNat : ℤ) * 60 +
        ((⌊t⌋ % 60).toNat : ℤ) = ⌊t⌋ := by omega
    have keyQ : ((((⌊t⌋ / 3600).toNat : ℕ)) : ℚ) * 3600 + ((((⌊t⌋ % 3600) / 60).toNat : ℕ) : ℚ) * 60 +
        (((⌊t⌋ % 60).toNat : ℕ) : ℚ) = ((⌊t⌋ : ℤ) : ℚ) := by
      exact_mod_cast congrArg (fun z : ℤ => (z : ℚ)) key
    have hcl : ((⌊(t - ((⌊t⌋ : ℤ) : ℚ)) * 100⌋ : ℤ) : ℚ) ≤ (t - ((⌊t⌋ : ℤ) : ℚ)) * 100 :=
      Int.floor_le _
    have hcu : (t - ((⌊t⌋ : ℤ) : ℚ)) * 100 < ((⌊(t - ((⌊t⌋ : ℤ) : ℚ)) * 100⌋ : ℤ) : ℚ) + 1 :=
      Int.lt_floor_add_one _
    have e4Q : ((((⌊(t - ((⌊t⌋ : ℤ) : ℚ)) * 100⌋).toNat : ℕ)) : ℚ) =
        ((⌊(t - ((⌊t⌋ : ℤ) : ℚ)) * 100⌋ : ℤ) : ℚ) := by
      exact_mod_cast congrArg (fun z : ℤ => (z : ℚ)) (Int.toNat_of_nonneg hc0)
    rw [abs_lt]
    rw [keyQ, e4Q]
    constructor
    · linarith
    · linarith

/-- C7: for every seconds value `t` in `[0, 36000)` (floats modelled as exact
rationals), decoding the `H:MM:SS.cc` string produced by `seconds_to_ass_time`
back to `hours*3600 + minutes*60 + seconds + centiseconds/100` differs from
`t` by strictly less than `0.01`. -/
theorem ass_time_roundtrip (t : ℚ) (h0 : 0 ≤ t) (h36 : t < 36000) :
    |t - ass_time_to_seconds (seconds_to_ass_time t)| < 1 / 100 := by
  obtain ⟨hN, mN, sN, csN, hb1, hb2, hb3, hb4, hrender, hval⟩ := codec_decomp t h0 h36
  rw [hrender, render_parse hN mN sN csN hb1 (by omega) (by omega) hb4]
  exact hval

/-- Witness for C7 at `t = 3.5`. -/
theorem ass_time_roundtrip_witness :
    (0 : ℚ) ≤ 7 / 2 ∧ (7 / 2 : ℚ) < 36000 ∧
    |(7 / 2 : ℚ) - ass_time_to_seconds (seconds_to_ass_time (7 / 2))| < 1 / 100 :=
  ⟨by norm_num, by norm_num, ass_time_roundtrip (7 / 2) (by norm_num) (by norm_num)⟩
